import Mathlib

/-!
Verification development for a Home Assistant → VictoriaMetrics feeder.

The development shallowly embeds two variants of the pipeline:
- the live feeder (custom_components/victoriametrics/__init__.py):
  classification of one state-change record attributes into numeric
  key_values vs. string tags, the synthesized fallback observation, the
  JSON metric construction, the single-attempt HTTP send, and the
  queue/consumer state machine;
- the backfill importer (import/__main__.py and import/victoria.py):
  per-cell classification of an exported row, per-entity metric batch
  aggregation, and the retried HTTP delivery loop.

External collaborators (ISO-8601 parsing, float parsing, the numeric
state helper) are passed in as function parameters, mirroring the
library calls the code defers to.  Python floats are modelled as ℚ,
machine timestamps as ℤ.
-/

/-- The closed set of raw attribute-value shapes the live feeder
classification chain inspects (lines 127‑147 of the component):
null, list, dict, tuple, datetime (epoch seconds), bool, number,
and everything else as a string. -/
inductive AttrValue where
  | null
  | listVal
  | dictVal
  | tupleVal
  | datetime (t : ℚ)
  | boolean (b : Bool)
  | number (q : ℚ)
  | str (s : String)
  deriving DecidableEq

/-- Result of classifying one attribute value: dropped, a numeric
sample, or a string tag. -/
inductive ClassResult where
  | dropped
  | numeric (q : ℚ)
  | tag (s : String)
  deriving DecidableEq

/-- Rational multiplication, stated through mkRat so that the kernel
can evaluate it on concrete inputs; qMul_eq_mul shows it agrees with
the ring multiplication of ℚ. -/
def qMul (a b : ℚ) : ℚ :=
  mkRat (a.num * b.num) (a.den * b.den)

theorem qMul_eq_mul (a b : ℚ) : qMul a b = a * b := by
  rw [qMul, Rat.mkRat_eq_div]
  push_cast
  rw [← div_mul_div_comm, Rat.num_div_den, Rat.num_div_den]

/-- The live feeder ordered classification chain
(component lines 128‑147).  `parse` stands for
ciso8601.parse_datetime, returning epoch seconds on success; on a
successful string parse the code multiplies by 1000. -/
def classifyAttr (parse : String → Option ℚ) : AttrValue → ClassResult
  | .null => .dropped
  | .listVal => .dropped
  | .dictVal => .dropped
  | .tupleVal => .dropped
  | .datetime t => .numeric t
  | .boolean b => .numeric (if b then 1 else 0)
  | .number q => .numeric q
  | .str s =>
    match parse s with
    | some t => .numeric (qMul t 1000)
    | none => .tag s

/-- Python-dict insertion: overwrite in place if the key exists,
else append at the end (insertion order preserved). -/
def dictInsert {α : Type} : List (String × α) → String → α → List (String × α)
  | [], k, v => [(k, v)]
  | (k0, v0) :: rest, k, v =>
    if k0 = k then (k0, v) :: rest else (k0, v0) :: dictInsert rest k v

/-- The classification loop over `things` (component lines 127‑152):
each entry lands in key_values or tags (or is dropped), in iteration
order. -/
def classifyThings (parse : String → Option ℚ) :
    List (String × AttrValue) → List (String × ℚ) × List (String × String)
  | [] => ([], [])
  | (k, v) :: rest =>
    let acc := classifyThings parse rest
    match classifyAttr parse v with
    | .dropped => acc
    | .numeric q => ((k, q) :: acc.1, acc.2)
    | .tag s => (acc.1, (k, s) :: acc.2)

/-- Lines 154‑157: if no numeric state was found, synthesize
the pair (value, 0) and record the raw primary state as a tag. -/
def finalizeKV (state : String) (kvs : List (String × ℚ))
    (tags : List (String × String)) :
    List (String × ℚ) × List (String × String) :=
  if kvs.isEmpty then ([("value", 0)], tags ++ [("value", state)])
  else (kvs, tags)

/-- Lines 120‑123: things = dict(attributes) and then the value entry is set to
state_as_number(new_state) unless that raised ValueError.
`stateNum` is the helper result (none = ValueError suppressed). -/
def mkThings (attrs : List (String × AttrValue)) (stateNum : Option ℚ) :
    List (String × AttrValue) :=
  match stateNum with
  | some q => dictInsert attrs "value" (AttrValue.number q)
  | none => attrs

/-- Python str.replace(" ", "_") on a single-character pattern. -/
def replaceSpacesStr (s : String) : String :=
  String.mk (s.data.map (fun c => if c = ' ' then '_' else c))

/-- Component line 162: the fully-qualified metric name. -/
def metricName (pfx entityId key : String) : String :=
  pfx ++ "." ++ entityId ++ "." ++ replaceSpacesStr key

/-- One JSON-line metric of the live feeder (lines 164‑172): the
metric label dict (with __name__ first), one value, one timestamp. -/
structure VMetric where
  metric : List (String × String)
  values : List ℚ
  timestamps : List Int
  deriving DecidableEq

/-- Lines 164‑172: build the metric dict starting from __name__ and
inserting each tag in order. -/
def buildMetric (pfx entityId : String) (tags : List (String × String))
    (tsMs : Int) (kv : String × ℚ) : VMetric :=
  { metric := tags.foldl (fun d p => dictInsert d p.1 p.2)
      [("__name__", metricName pfx entityId kv.1)],
    values := [kv.2],
    timestamps := [tsMs] }

/-- The live feeder _report_event (lines 114‑180), from the raw
record pieces to the list of JSON-line metrics sent in one flush. -/
def reportEvent (parse : String → Option ℚ) (pfx entityId state : String)
    (stateNum : Option ℚ) (attrs : List (String × AttrValue))
    (tsMs : Int) : List VMetric :=
  let things := mkThings attrs stateNum
  let ct := classifyThings parse things
  let fin := finalizeKV state ct.1 ct.2
  fin.1.map (buildMetric pfx entityId fin.2 tsMs)

/-! ## Delivery clients -/

/-- Outcome of one HTTP POST attempt: a connectivity fault (the
client raised) or a response with an ok/not-ok status. -/
inductive Outcome where
  | clientError
  | httpStatus (ok : Bool)
  deriving DecidableEq

/-- Victoria.MAX_ATTEMPTS (import/victoria.py line 21). -/
def MAX_ATTEMPTS : Nat := 3

/-- The retry loop body of Victoria.import_data
(import/victoria.py lines 26‑46), iterating over the attempt numbers
`range(1, MAX_ATTEMPTS + 1)`.  `outcomes n` is the result of the
n-th POST.  Returns (number of attempts made, sleeps performed,
final result: ok on break, error on raise). -/
def runAttempts (outcomes : Nat → Outcome) :
    List Nat → Nat × List Nat × Except Outcome Unit
  | [] => (0, [], Except.ok ())
  | attempt :: rest =>
    match outcomes attempt with
    | .clientError =>
      if attempt < MAX_ATTEMPTS then
        let r := runAttempts outcomes rest
        (r.1 + 1, 2 ^ attempt :: r.2.1, r.2.2)
      else (1, [], Except.error Outcome.clientError)
    | .httpStatus ok =>
      if ok then (1, [], Except.ok ())
      else if attempt < MAX_ATTEMPTS then
        let r := runAttempts outcomes rest
        (r.1 + 1, 2 ^ attempt :: r.2.1, r.2.2)
      else (1, [], Except.error (Outcome.httpStatus false))

/-- Victoria.import_data: run the attempts 1..MAX_ATTEMPTS. -/
def importData (outcomes : Nat → Outcome) :
    Nat × List Nat × Except Outcome Unit :=
  runAttempts outcomes (List.range' 1 MAX_ATTEMPTS)

/-- The live feeder _send_to_victoriametrics (lines 106‑112):
a single POST; a non-ok response is only logged (no retry, no
raise), a connectivity fault propagates to the caller at once. -/
def sendToVictoriametrics (outcome : Outcome) : Nat × Except Outcome Unit :=
  match outcome with
  | .clientError => (1, Except.error Outcome.clientError)
  | .httpStatus _ => (1, Except.ok ())

/-! ## Queue / dispatcher (live-feed mode) -/

/-- The pieces of a bus event the consumer loop inspects. -/
structure LEvent where
  eventType : String
  hasNewState : Bool
  entityId : String
  deriving DecidableEq

/-- A queue element: a data event, or the shutdown sentinel
(self._quit_object). -/
inductive QItem where
  | ev (e : LEvent)
  | quit
  deriving DecidableEq

/-- What the consumer loop did with one dequeued event. -/
inductive Handled where
  | reported
  | reportFailed
  | skippedNoNewState
  | unexpectedType
  deriving DecidableEq

/-- The body of the run loop for a non-sentinel item (component lines
189‑209): state_changed events without new_state are skipped, the
report call is wrapped in a broad except that logs the failure,
other event types are logged as unexpected.  `proc` is the
_report_event call; an error value is the exception it raised. -/
def handleEvent (proc : LEvent → Except Unit Unit) (e : LEvent) : Handled :=
  if e.eventType = "state_changed" then
    if e.hasNewState then
      match proc e with
      | .ok _ => .reported
      | .error _ => .reportFailed
    else .skippedNoNewState
  else .unexpectedType

/-- The consumer loop (component lines 182‑211) over the queued
items: dequeue one at a time; on the sentinel return at once (the
remaining items are never dequeued); otherwise handle the event and
continue.  Returns the handled events in order and the items left
in the queue when the loop exited. -/
def runLoop (proc : LEvent → Except Unit Unit) :
    List QItem → List (LEvent × Handled) × List QItem
  | [] => ([], [])
  | .quit :: rest => ([], rest)
  | .ev e :: rest =>
    let r := runLoop proc rest
    ((e, handleEvent proc e) :: r.1, r.2)

/-- Producer-side state of the feeder thread: _we_started, whether
the run loop has returned, the queue contents, and a count of the
events dropped with a logged error. -/
structure FeederState where
  weStarted : Bool
  exited : Bool
  queue : List QItem
  droppedEvents : Nat
  deriving DecidableEq

/-- threading.Thread.is_alive(): true between start() and the return
of run(). -/
def FeederState.isAlive (st : FeederState) : Bool :=
  st.weStarted && !st.exited

/-- event_listener (component lines 98‑104): enqueue when the thread
is alive or was never started; otherwise drop with a logged error. -/
def eventListener (st : FeederState) (e : LEvent) : FeederState :=
  if st.isAlive || !st.weStarted then
    { st with queue := st.queue ++ [QItem.ev e] }
  else
    { st with droppedEvents := st.droppedEvents + 1 }

/-- shutdown (component lines 93‑96): enqueue the sentinel. -/
def shutdownSignal (st : FeederState) : FeederState :=
  { st with queue := st.queue ++ [QItem.quit] }

/-- start_listen (component lines 87‑91). -/
def startListen (st : FeederState) : FeederState :=
  { st with weStarted := true }

/-! ## Backfill importer (import/__main__.py) -/

/-- Python int() on a rational: truncation toward zero. -/
def pyInt (q : ℚ) : Int :=
  q.num.tdiv q.den

/-- Python str.removesuffix. -/
def removeSuffixStr (s suf : String) : String :=
  if suf.data.isSuffixOf s.data then
    String.mk (s.data.take (s.data.length - suf.data.length))
  else s

/-- Python str.lower (over the ASCII range the code compares
against). -/
def pyLower (s : String) : String :=
  String.mk (s.data.map Char.toLower)

/-- transform_tag (importer lines 25‑28). -/
def transform_tag (tag : String) : String :=
  if tag = "_measurement" then "unit_of_measurement"
  else removeSuffixStr tag "_str"

/-- Accumulator for one data row (importer lines 106‑110). -/
structure RowState where
  key_values : List (String × ℚ)
  tags : List (String × String)
  domain : Option String
  entity_id : Option String
  timestamp : Option Int
  deriving DecidableEq

/-- The empty accumulator a data row starts from. -/
def initRowState : RowState :=
  ⟨[], [], Option.none, Option.none, Option.none⟩

/-- One iteration of the per-cell loop (importer lines 112‑143).
A cell is the (datatype, header, value) triple for one column.
`pf` is Python float(); `iso` is dateutil.parser.isoparse giving
epoch seconds; both return none where the library call would raise,
which aborts the whole row (and run). -/
def stepCell (pf iso : String → Option ℚ) (blacklistTags : List String)
    (st : RowState) (cell : String × String × String) : Option RowState :=
  let datatype := cell.1
  let header := cell.2.1
  let value := cell.2.2
  if header = "" ∨ header = "result" ∨ header = "table" then some st
  else if header = "_time" then
    match iso value with
    | some secs => some { st with timestamp := some (pyInt (qMul secs 1000)) }
    | none => none
  else if header = "domain" then some { st with domain := some value }
  else if header = "entity_id" then some { st with entity_id := some value }
  else if datatype = "double" ∧ value ≠ "" then
    match pf value with
    | some q =>
      if header = "value" then
        some { st with key_values := st.key_values ++ [("value", q)] }
      else
        some { st with key_values := st.key_values ++ [(header, q)] }
    | none => none
  else
    if header = "state" ∧ pyLower value ∈ ["zapnuto", "zap", "on"] then
      some { st with key_values := st.key_values ++ [("value", 1)] }
    else if header = "state" ∧ pyLower value ∈ ["vypnuto", "vyp", "off"] then
      some { st with key_values := st.key_values ++ [("value", 0)] }
    else
      let key := transform_tag header
      if key ∈ blacklistTags then some st
      else some { st with tags := dictInsert st.tags key value }

/-- Run the per-cell loop over a whole data row. -/
def rowClassifyAux (pf iso : String → Option ℚ) (bl : List String)
    (st : RowState) : List (String × String × String) → Option RowState
  | [] => some st
  | c :: rest =>
    match stepCell pf iso bl st c with
    | some st2 => rowClassifyAux pf iso bl st2 rest
    | none => none

/-- Classify one data row from the empty accumulator. -/
def rowClassify (pf iso : String → Option ℚ) (bl : List String)
    (cells : List (String × String × String)) : Option RowState :=
  rowClassifyAux pf iso bl initRowState cells

/-- A fully classified row ready for aggregation. -/
structure RowResult where
  key_values : List (String × ℚ)
  tags : List (String × String)
  domain : String
  entity_id : String
  timestamp : Int
  deriving DecidableEq

/-- Importer lines 145‑151: synthesize the pair (value, 0) when no numeric
value was found, then the three asserts (Python truthiness: None,
the empty string and 0 all fail). -/
def finalizeRow (st : RowState) : Option RowResult :=
  let kvs := if st.key_values.isEmpty then [("value", 0)] else st.key_values
  match st.domain, st.entity_id, st.timestamp with
  | some d, some e, some t =>
    if d ≠ "" ∧ e ≠ "" ∧ t ≠ 0 then some ⟨kvs, st.tags, d, e, t⟩
    else Option.none
  | _, _, _ => Option.none

/-- Classify and finalize one data row. -/
def processRow (pf iso : String → Option ℚ) (bl : List String)
    (cells : List (String × String × String)) : Option RowResult :=
  match rowClassify pf iso bl cells with
  | some st => finalizeRow st
  | none => Option.none

/-- One aggregated series entry of the importer per-entity batch
(importer lines 87‑93): the defaultdict default has an empty name,
no tags, and empty value/timestamp lists. -/
structure MetricEntry where
  name : String
  tags : List (String × String)
  values : List ℚ
  timestamps : List Int
  deriving DecidableEq

/-- The defaultdict default entry (importer lines 87‑93). -/
def emptyEntry : MetricEntry := ⟨"", [], [], []⟩

/-- Importer lines 158‑163 applied to one entry: set __name__,
append the value and the timestamp, and (re)insert every tag. -/
def updateEntry (m : MetricEntry) (name : String)
    (tags : List (String × String)) (v : ℚ) (ts : Int) : MetricEntry :=
  { name := name,
    tags := tags.foldl (fun d p => dictInsert d p.1 p.2) m.tags,
    values := m.values ++ [v],
    timestamps := m.timestamps ++ [ts] }

/-- `metrics[metric_with_tags]` on a defaultdict and the subsequent
update (importer lines 157‑163): find the keyed entry, creating the
default at the end when absent, and update it in place. -/
def batchAdd (b : List (String × MetricEntry)) (key name : String)
    (tags : List (String × String)) (v : ℚ) (ts : Int) :
    List (String × MetricEntry) :=
  match b with
  | [] => [(key, updateEntry emptyEntry name tags v ts)]
  | (k0, m0) :: rest =>
    if k0 = key then (k0, updateEntry m0 name tags v ts) :: rest
    else (k0, m0) :: batchAdd rest key name tags v ts

/-- Importer line 155: the aggregation-key tag string. -/
def joinTags (tags : List (String × String)) : String :=
  String.intercalate ";" (tags.map (fun p => p.1 ++ "=" ++ p.2))

/-- Importer lines 153‑163: add every key_value of one finalized row
to the batch under the key metric_name;tag-string. -/
def addRowToBatch (pfx : String) (b : List (String × MetricEntry))
    (rr : RowResult) : List (String × MetricEntry) :=
  rr.key_values.foldl
    (fun b2 kv =>
      let name := pfx ++ "." ++ rr.domain ++ "." ++ rr.entity_id ++ "."
        ++ replaceSpacesStr kv.1
      batchAdd b2 (name ++ ";" ++ joinTags rr.tags) name rr.tags kv.2
        rr.timestamp) b

/-- Process a sequence of data rows of one entity into a batch,
starting from a given batch (the per-entity loop body, importer
lines 95‑163); any row fault aborts the run. -/
def processRows (pf iso : String → Option ℚ) (bl : List String)
    (pfx : String) (b : List (String × MetricEntry)) :
    List (List (String × String × String)) →
    Option (List (String × MetricEntry))
  | [] => some b
  | row :: rest =>
    match processRow pf iso bl row with
    | some rr => processRows pf iso bl pfx (addRowToBatch pfx b rr) rest
    | none => Option.none

/-- Importer line 165: the encoder emits exactly the stored entries,
in insertion order (metrics.values()). -/
def emitBatch (b : List (String × MetricEntry)) : List MetricEntry :=
  b.map (fun p => p.2)

/-! ## Metric-name sanitization as character lists -/

/-- Space substitution over the characters of a name
(str.replace applied to a single-character pattern). -/
def replaceSpaces (s : List Char) : List Char :=
  s.map (fun c => if c = ' ' then '_' else c)

/-- Python str.rstrip('.'): drop the trailing dots. -/
def rstripDots (s : List Char) : List Char :=
  (s.reverse.dropWhile (fun c => c = '.')).reverse

/-- The construction join(prefix, path, attribute) of component line
162 and importer line 154: only the attribute-key spaces are
substituted. -/
def mkMetricName (pfx path key : List Char) : List Char :=
  pfx ++ '.' :: (path ++ '.' :: replaceSpaces key)

/-- Re-application of the two sanitization steps to a whole name:
space substitution followed by trailing-separator stripping. -/
def sanitizeName (s : List Char) : List Char :=
  rstripDots (replaceSpaces s)

/-! ## Theorems -/

/-- An attempt outcome that takes the retry path (connectivity fault
or non-2xx response). -/
def failsOutcome (o : Outcome) : Prop :=
  o ≠ Outcome.httpStatus true

/-- The data events of a queue segment, in order. -/
def eventsOf : List QItem → List LEvent :=
  List.filterMap (fun i =>
    match i with
    | QItem.ev e => some e
    | QItem.quit => Option.none)

/-- C3 (amended): the backfill HTTP client Victoria.import_data makes
at most 3 attempts per flush, stops immediately on the first success,
sleeps the doubling delays 2s then 4s between failed attempts, and
raises the failure only after all 3 attempts failed; the live feeder
HTTP sender, by contrast, makes exactly one attempt per flush and
never retries. -/
theorem http_retry_amended (outcomes : Nat → Outcome) :
    (importData outcomes).1 ≤ MAX_ATTEMPTS
    ∧ (outcomes 1 = Outcome.httpStatus true →
        importData outcomes = (1, [], Except.ok ()))
    ∧ (failsOutcome (outcomes 1) → outcomes 2 = Outcome.httpStatus true →
        importData outcomes = (2, [2], Except.ok ()))
    ∧ (failsOutcome (outcomes 1) → failsOutcome (outcomes 2) →
        outcomes 3 = Outcome.httpStatus true →
        importData outcomes = (3, [2, 4], Except.ok ()))
    ∧ (failsOutcome (outcomes 1) → failsOutcome (outcomes 2) →
        failsOutcome (outcomes 3) →
        importData outcomes = (3, [2, 4], Except.error (outcomes 3)))
    ∧ (∀ o : Outcome, (sendToVictoriametrics o).1 = 1) := by
  have hr : ∀ f : Nat → Outcome, importData f = runAttempts f [1, 2, 3] := by
    intro f
    rfl
  refine ⟨?_, ?_, ?_, ?_, ?_, ?_⟩
  · rcases o1 : outcomes 1 with _ | (_ | _) <;>
      rcases o2 : outcomes 2 with _ | (_ | _) <;>
      rcases o3 : outcomes 3 with _ | (_ | _) <;>
      simp [hr, runAttempts, o1, o2, o3, MAX_ATTEMPTS]
  · intro h1
    simp [hr, runAttempts, h1, MAX_ATTEMPTS]
  · intro h1 h2
    rcases o1 : outcomes 1 with _ | (_ | _)
    · simp [hr, runAttempts, o1, h2, MAX_ATTEMPTS]
    · simp [hr, runAttempts, o1, h2, MAX_ATTEMPTS]
    · rw [o1] at h1
      exact absurd rfl h1
  · intro h1 h2 h3
    rcases o1 : outcomes 1 with _ | (_ | _) <;>
      rcases o2 : outcomes 2 with _ | (_ | _)
    all_goals
      first
      | (rw [o1] at h1; exact absurd rfl h1)
      | (rw [o2] at h2; exact absurd rfl h2)
      | simp [hr, runAttempts, o1, o2, h3, MAX_ATTEMPTS]
  · intro h1 h2 h3
    rcases o1 : outcomes 1 with _ | (_ | _) <;>
      rcases o2 : outcomes 2 with _ | (_ | _) <;>
      rcases o3 : outcomes 3 with _ | (_ | _)
    all_goals
      first
      | (rw [o1] at h1; exact absurd rfl h1)
      | (rw [o2] at h2; exact absurd rfl h2)
      | (rw [o3] at h3; exact absurd rfl h3)
      | simp [hr, runAttempts, o1, o2, o3, MAX_ATTEMPTS]
  · intro o
    rcases o with _ | ok <;> rfl

/-- C3 (counterexample): the live feeder HTTP flush under a
persistent non-2xx response makes exactly one attempt and neither
retries nor raises, contradicting a 3-attempt retry ladder on every
HTTP flush. -/
theorem http_retry_counterexample :
    sendToVictoriametrics (Outcome.httpStatus false) = (1, Except.ok ())
    ∧ (1 : Nat) ≠ 3 := by
  exact ⟨rfl, by decide⟩

/-- C3 (witness): the amended retry theorem applied to a run whose
first two attempts hit connectivity faults and whose third succeeds,
and to a run where every attempt faults. -/
theorem http_retry_witness :
    importData (fun n => if n ≤ 2 then Outcome.clientError else Outcome.httpStatus true)
      = (3, [2, 4], Except.ok ())
    ∧ importData (fun _ => Outcome.clientError)
      = (3, [2, 4], Except.error Outcome.clientError) := by
  constructor
  · exact (http_retry_amended
      (fun n => if n ≤ 2 then Outcome.clientError else Outcome.httpStatus true)).2.2.2.1
      (by unfold failsOutcome; decide) (by unfold failsOutcome; decide) (by decide)
  · exact (http_retry_amended (fun _ => Outcome.clientError)).2.2.2.2.1
      (by unfold failsOutcome; decide) (by unfold failsOutcome; decide)
      (by unfold failsOutcome; decide)

/-- C9: a state cell of non-double datatype whose value lowercases
into the on vocabulary contributes the numeric key_value (value, 1),
and for the off vocabulary (value, 0); the tags and everything else
are untouched, so the value never reaches the tag rule. -/
theorem onoff_vocabulary (pf iso : String → Option ℚ) (bl : List String)
    (st : RowState) (dt v : String) (hdt : dt ≠ "double") :
    (pyLower v ∈ ["zapnuto", "zap", "on"] →
      stepCell pf iso bl st (dt, "state", v)
        = some { st with key_values := st.key_values ++ [("value", 1)] })
    ∧ (pyLower v ∈ ["vypnuto", "vyp", "off"] →
      stepCell pf iso bl st (dt, "state", v)
        = some { st with key_values := st.key_values ++ [("value", 0)] }) := by
  constructor
  · intro hon
    simp only [stepCell]
    rw [if_neg (show ¬("state" = "" ∨ "state" = "result" ∨ "state" = "table") by decide),
      if_neg (show ¬("state" = "_time") by decide),
      if_neg (show ¬("state" = "domain") by decide),
      if_neg (show ¬("state" = "entity_id") by decide),
      if_neg (show ¬(dt = "double" ∧ v ≠ "") from fun h => hdt h.1)]
    simp [hon]
  · intro hoff
    have hnot : pyLower v ∉ ["zapnuto", "zap", "on"] := by
      intro hon
      simp only [List.mem_cons, List.not_mem_nil, or_false] at hon hoff
      rcases hon with h | h | h <;> rcases hoff with g | g | g <;>
        rw [h] at g <;> exact absurd g (by decide)
    simp only [stepCell]
    rw [if_neg (show ¬("state" = "" ∨ "state" = "result" ∨ "state" = "table") by decide),
      if_neg (show ¬("state" = "_time") by decide),
      if_neg (show ¬("state" = "domain") by decide),
      if_neg (show ¬("state" = "entity_id") by decide),
      if_neg (show ¬(dt = "double" ∧ v ≠ "") from fun h => hdt h.1)]
    simp [hoff, hnot]

/-- C9 (witness): the vocabulary theorem applied to the states On
and vYp on the empty accumulator. -/
theorem onoff_vocabulary_witness :
    stepCell (fun _ => Option.none) (fun _ => Option.none) [] initRowState
        ("string", "state", "On")
      = some ⟨[("value", 1)], [], Option.none, Option.none, Option.none⟩
    ∧ stepCell (fun _ => Option.none) (fun _ => Option.none) [] initRowState
        ("string", "state", "vYp")
      = some ⟨[("value", 0)], [], Option.none, Option.none, Option.none⟩ := by
  constructor
  · exact ((onoff_vocabulary (fun _ => Option.none) (fun _ => Option.none) []
      initRowState "string" "On" (by decide)).1 (by decide)).trans (by decide)
  · exact ((onoff_vocabulary (fun _ => Option.none) (fun _ => Option.none) []
      initRowState "string" "vYp" (by decide)).2 (by decide)).trans (by decide)

/-- C7: (a) when the queue holds the shutdown sentinel, the consumer
loop processes exactly the data events before the sentinel and exits
there, leaving everything after the sentinel un-dequeued; (b)
system-stop enqueues the sentinel at the tail of the queue; (c) once
the thread was started and has exited, an enqueue attempt is dropped
with a logged error (the drop counter grows) and the queue is left
unchanged. -/
theorem sentinel_shutdown :
    (∀ (proc : LEvent → Except Unit Unit) (before after : List QItem),
      QItem.quit ∉ before →
      runLoop proc (before ++ QItem.quit :: after)
        = ((eventsOf before).map (fun e => (e, handleEvent proc e)), after))
    ∧ (∀ st : FeederState,
        shutdownSignal st = { st with queue := st.queue ++ [QItem.quit] })
    ∧ (∀ (st : FeederState) (e : LEvent),
        st.weStarted = true → st.exited = true →
        eventListener st e
          = { st with droppedEvents := st.droppedEvents + 1 }) := by
  refine ⟨?_, fun st => rfl, ?_⟩
  · intro proc before after hq
    induction before with
    | nil => rfl
    | cons i rest ih =>
      match i with
      | QItem.quit => exact absurd (List.mem_cons_self _ _) hq
      | QItem.ev e =>
        have hq2 : QItem.quit ∉ rest := fun h => hq (List.mem_cons_of_mem _ h)
        simp only [List.cons_append, runLoop, eventsOf, List.filterMap_cons,
          List.map_cons, List.append_eq, ih hq2]
  · intro st e hs hx
    simp [eventListener, FeederState.isAlive, hs, hx]

/-- C7 (witness): the sentinel theorem applied to a queue holding one
data event, the sentinel, and one event behind it, and the guard
applied to a started-and-exited feeder. -/
theorem sentinel_shutdown_witness :
    runLoop (fun _ => Except.ok ())
        [QItem.ev ⟨"state_changed", true, "switch.fan"⟩, QItem.quit,
         QItem.ev ⟨"state_changed", true, "sensor.temp"⟩]
      = ([(⟨"state_changed", true, "switch.fan"⟩, Handled.reported)],
         [QItem.ev ⟨"state_changed", true, "sensor.temp"⟩])
    ∧ eventListener ⟨true, true, [], 0⟩ ⟨"state_changed", true, "switch.fan"⟩
      = ⟨true, true, [], 1⟩ := by
  constructor
  · exact (sentinel_shutdown.1 (fun _ => Except.ok ())
      [QItem.ev ⟨"state_changed", true, "switch.fan"⟩]
      [QItem.ev ⟨"state_changed", true, "sensor.temp"⟩] (by decide)).trans rfl
  · exact (sentinel_shutdown.2.2 ⟨true, true, [], 0⟩
      ⟨"state_changed", true, "switch.fan"⟩ rfl rfl).trans rfl

/-- C8: (a) a state_changed record with a new state whose report
raises is caught and logged as a failed report, and the loop
continues with the rest of the queue exactly as it would have;
(b) which records get dequeued and in which order is independent of
which per-record faults occur, so no per-record fault terminates the
loop. -/
theorem fault_isolation :
    (∀ (proc : LEvent → Except Unit Unit) (e : LEvent) (rest : List QItem),
      e.eventType = "state_changed" → e.hasNewState = true →
      proc e = Except.error () →
      runLoop proc (QItem.ev e :: rest)
        = ((e, Handled.reportFailed) :: (runLoop proc rest).1,
           (runLoop proc rest).2))
    ∧ (∀ (proc proc2 : LEvent → Except Unit Unit) (items : List QItem),
        ((runLoop proc items).1.map Prod.fst)
          = ((runLoop proc2 items).1.map Prod.fst)
        ∧ (runLoop proc items).2 = (runLoop proc2 items).2) := by
  constructor
  · intro proc e rest h1 h2 h3
    simp [runLoop, handleEvent, h1, h2, h3]
  · intro proc proc2 items
    induction items with
    | nil => exact ⟨rfl, rfl⟩
    | cons i rest ih =>
      match i with
      | QItem.quit => exact ⟨rfl, rfl⟩
      | QItem.ev e =>
        simp only [runLoop, List.map_cons]
        exact ⟨by rw [ih.1], ih.2⟩

/-- C8 (witness): a report that raises on the only queued record
still yields a processed record marked report-failed and an empty
remaining queue. -/
theorem fault_isolation_witness :
    runLoop (fun _ => Except.error ())
        [QItem.ev ⟨"state_changed", true, "sensor.temp"⟩]
      = ([(⟨"state_changed", true, "sensor.temp"⟩, Handled.reportFailed)], []) := by
  exact (fault_isolation.1 (fun _ => Except.error ())
    ⟨"state_changed", true, "sensor.temp"⟩ [] rfl rfl rfl).trans rfl

/-- C10: a record arriving before the consumer was started is
enqueued (never dropped), and a drop (growth of the drop counter)
can only happen when the thread was started and has exited. -/
theorem enqueue_before_start (st : FeederState) (e : LEvent) :
    (st.weStarted = false →
      eventListener st e = { st with queue := st.queue ++ [QItem.ev e] })
    ∧ ((eventListener st e).droppedEvents ≠ st.droppedEvents →
      st.weStarted = true ∧ st.exited = true) := by
  constructor
  · intro hs
    simp [eventListener, FeederState.isAlive, hs]
  · intro hd
    rcases hs : st.weStarted <;> rcases hx : st.exited
    · simp [eventListener, FeederState.isAlive, hs, hx] at hd
    · simp [eventListener, FeederState.isAlive, hs, hx] at hd
    · simp [eventListener, FeederState.isAlive, hs, hx] at hd
    · exact ⟨rfl, rfl⟩

/-- C10 (witness): an event arriving at the not-yet-started feeder is
enqueued. -/
theorem enqueue_before_start_witness :
    eventListener ⟨false, false, [], 0⟩ ⟨"state_changed", true, "switch.fan"⟩
      = ⟨false, false, [QItem.ev ⟨"state_changed", true, "switch.fan"⟩], 0⟩ := by
  exact ((enqueue_before_start ⟨false, false, [], 0⟩
    ⟨"state_changed", true, "switch.fan"⟩).1 rfl).trans rfl

/-- In a list with pairwise-distinct keys, a key identifies its
value. -/
theorem keys_nodup_unique {α : Type} :
    ∀ (l : List (String × α)), (l.map Prod.fst).Nodup →
      ∀ (k : String) (a b : α), (k, a) ∈ l → (k, b) ∈ l → a = b := by
  intro l
  induction l with
  | nil =>
    intro _ k a b ha _
    exact absurd ha (List.not_mem_nil _)
  | cons p rest ih =>
    intro hnd k a b ha hb
    simp only [List.map_cons, List.nodup_cons] at hnd
    rcases List.mem_cons.mp ha with h1 | h1
    · rcases List.mem_cons.mp hb with h2 | h2
      · exact congrArg Prod.snd (h1.trans h2.symm)
      · rw [← h1] at hnd
        exact absurd (List.mem_map_of_mem Prod.fst h2) hnd.1
    · rcases List.mem_cons.mp hb with h2 | h2
      · rw [← h2] at hnd
        exact absurd (List.mem_map_of_mem Prod.fst h1) hnd.1
      · exact ih hnd.2 k a b h1 h2

/-- An attribute classified numeric lands in key_values. -/
theorem classifyThings_mem_numeric (parse : String → Option ℚ) :
    ∀ (things : List (String × AttrValue)) (k : String) (v : AttrValue)
      (q : ℚ), (k, v) ∈ things → classifyAttr parse v = ClassResult.numeric q →
      (k, q) ∈ (classifyThings parse things).1 := by
  intro things
  induction things with
  | nil =>
    intro k v q hm _
    exact absurd hm (List.not_mem_nil _)
  | cons p rest ih =>
    intro k v q hm hc
    match p with
    | (k0, v0) =>
      rcases List.mem_cons.mp hm with h1 | h1
      · have hk : k0 = k := (congrArg Prod.fst h1.symm)
        have hv : v0 = v := (congrArg Prod.snd h1.symm)
        simp only [classifyThings, hv, hc, hk]
        exact List.mem_cons_self _ _
      · have hrec := ih k v q h1 hc
        simp only [classifyThings]
        rcases hc0 : classifyAttr parse v0 with _ | q0 | s0 <;> simp only
        · exact hrec
        · exact List.mem_cons_of_mem _ hrec
        · exact hrec

/-- An attribute classified as a tag lands in tags. -/
theorem classifyThings_mem_tag (parse : String → Option ℚ) :
    ∀ (things : List (String × AttrValue)) (k : String) (v : AttrValue)
      (s : String), (k, v) ∈ things → classifyAttr parse v = ClassResult.tag s →
      (k, s) ∈ (classifyThings parse things).2 := by
  intro things
  induction things with
  | nil =>
    intro k v s hm _
    exact absurd hm (List.not_mem_nil _)
  | cons p rest ih =>
    intro k v s hm hc
    match p with
    | (k0, v0) =>
      rcases List.mem_cons.mp hm with h1 | h1
      · have hk : k0 = k := (congrArg Prod.fst h1.symm)
        have hv : v0 = v := (congrArg Prod.snd h1.symm)
        simp only [classifyThings, hv, hc, hk]
        exact List.mem_cons_self _ _
      · have hrec := ih k v s h1 hc
        simp only [classifyThings]
        rcases hc0 : classifyAttr parse v0 with _ | q0 | s0 <;> simp only
        · exact hrec
        · exact hrec
        · exact List.mem_cons_of_mem _ hrec

/-- Every key_value entry originates from an attribute the chain
classified numeric. -/
theorem classifyThings_numeric_source (parse : String → Option ℚ) :
    ∀ (things : List (String × AttrValue)) (k : String) (q : ℚ),
      (k, q) ∈ (classifyThings parse things).1 →
      ∃ v, (k, v) ∈ things ∧ classifyAttr parse v = ClassResult.numeric q := by
  intro things
  induction things with
  | nil =>
    intro k q hm
    exact absurd hm (List.not_mem_nil _)
  | cons p rest ih =>
    intro k q hm
    match p with
    | (k0, v0) =>
      simp only [classifyThings] at hm
      rcases hc0 : classifyAttr parse v0 with _ | q0 | s0 <;>
        rw [hc0] at hm <;> simp only at hm
      · rcases ih k q hm with ⟨v, hv1, hv2⟩
        exact ⟨v, List.mem_cons_of_mem _ hv1, hv2⟩
      · rcases List.mem_cons.mp hm with h1 | h1
        · have hk : k = k0 := congrArg Prod.fst h1
          have hq : q = q0 := congrArg Prod.snd h1
          exact ⟨v0, by rw [hk]; exact List.mem_cons_self _ _, by rw [hq]; exact hc0⟩
        · rcases ih k q h1 with ⟨v, hv1, hv2⟩
          exact ⟨v, List.mem_cons_of_mem _ hv1, hv2⟩
      · rcases ih k q hm with ⟨v, hv1, hv2⟩
        exact ⟨v, List.mem_cons_of_mem _ hv1, hv2⟩

/-- Every tag entry originates from an attribute the chain classified
as a tag. -/
theorem classifyThings_tag_source (parse : String → Option ℚ) :
    ∀ (things : List (String × AttrValue)) (k s : String),
      (k, s) ∈ (classifyThings parse things).2 →
      ∃ v, (k, v) ∈ things ∧ classifyAttr parse v = ClassResult.tag s := by
  intro things
  induction things with
  | nil =>
    intro k s hm
    exact absurd hm (List.not_mem_nil _)
  | cons p rest ih =>
    intro k s hm
    match p with
    | (k0, v0) =>
      simp only [classifyThings] at hm
      rcases hc0 : classifyAttr parse v0 with _ | q0 | s0 <;>
        rw [hc0] at hm <;> simp only at hm
      · rcases ih k s hm with ⟨v, hv1, hv2⟩
        exact ⟨v, List.mem_cons_of_mem _ hv1, hv2⟩
      · rcases ih k s hm with ⟨v, hv1, hv2⟩
        exact ⟨v, List.mem_cons_of_mem _ hv1, hv2⟩
      · rcases List.mem_cons.mp hm with h1 | h1
        · have hk : k = k0 := congrArg Prod.fst h1
          have hs : s = s0 := congrArg Prod.snd h1
          exact ⟨v0, by rw [hk]; exact List.mem_cons_self _ _, by rw [hs]; exact hc0⟩
        · rcases ih k s h1 with ⟨v, hv1, hv2⟩
          exact ⟨v, List.mem_cons_of_mem _ hv1, hv2⟩

/-- A value of numeric, boolean, or temporally-parseable type:
datetime, bool, number, or a string the ISO-8601 parser accepts. -/
def temporalOrNumericAttr (parse : String → Option ℚ) (v : AttrValue) : Prop :=
  (∃ t, v = AttrValue.datetime t) ∨ (∃ b, v = AttrValue.boolean b)
  ∨ (∃ q, v = AttrValue.number q)
  ∨ (∃ s t, v = AttrValue.str s ∧ parse s = some t)

/-- C5: an attribute whose value is numeric, boolean, or temporally
parseable (a datetime, or an ISO-8601-parseable string) contributes
a numeric entry to key_values and never appears among the tags. -/
theorem numeric_never_tag (parse : String → Option ℚ)
    (things : List (String × AttrValue)) (k : String) (v : AttrValue)
    (hm : (k, v) ∈ things) (hty : temporalOrNumericAttr parse v)
    (hnd : (things.map Prod.fst).Nodup) :
    (∃ q, (k, q) ∈ (classifyThings parse things).1)
    ∧ ∀ s, (k, s) ∉ (classifyThings parse things).2 := by
  have hc : ∃ q, classifyAttr parse v = ClassResult.numeric q := by
    rcases hty with ⟨t, rfl⟩ | ⟨b, rfl⟩ | ⟨q, rfl⟩ | ⟨s, t, rfl, hp⟩
    · exact ⟨t, rfl⟩
    · exact ⟨if b then 1 else 0, rfl⟩
    · exact ⟨q, rfl⟩
    · exact ⟨qMul t 1000, by simp [classifyAttr, hp]⟩
  rcases hc with ⟨q, hc⟩
  constructor
  · exact ⟨q, classifyThings_mem_numeric parse things k v q hm hc⟩
  · intro s hs
    rcases classifyThings_tag_source parse things k s hs with ⟨v2, hv1, hv2⟩
    rw [keys_nodup_unique things hnd k v2 v hv1 hm] at hv2
    rw [hc] at hv2
    exact ClassResult.noConfusion hv2

/-- C5 (witness): the numeric-never-tag theorem applied to a number,
a boolean, a datetime, and a parseable string attribute of one
concrete record. -/
theorem numeric_never_tag_witness :
    ((∃ q, ("temperature", q) ∈
        (classifyThings (fun s => if s = "2022-01-01" then some 5 else Option.none)
          [("temperature", AttrValue.number 21), ("on", AttrValue.boolean true),
           ("seen", AttrValue.datetime 7), ("born", AttrValue.str "2022-01-01"),
           ("friendly_name", AttrValue.str "Living Room")]).1)
      ∧ ∀ s, ("temperature", s) ∉
        (classifyThings (fun s => if s = "2022-01-01" then some 5 else Option.none)
          [("temperature", AttrValue.number 21), ("on", AttrValue.boolean true),
           ("seen", AttrValue.datetime 7), ("born", AttrValue.str "2022-01-01"),
           ("friendly_name", AttrValue.str "Living Room")]).2)
    ∧ (∃ q, ("born", q) ∈
        (classifyThings (fun s => if s = "2022-01-01" then some 5 else Option.none)
          [("temperature", AttrValue.number 21), ("on", AttrValue.boolean true),
           ("seen", AttrValue.datetime 7), ("born", AttrValue.str "2022-01-01"),
           ("friendly_name", AttrValue.str "Living Room")]).1) := by
  refine ⟨numeric_never_tag _ _ "temperature" (AttrValue.number 21) (by decide)
    (Or.inr (Or.inr (Or.inl ⟨21, rfl⟩))) (by decide), ?_⟩
  exact (numeric_never_tag _ _ "born" (AttrValue.str "2022-01-01") (by decide)
    (Or.inr (Or.inr (Or.inr ⟨"2022-01-01", 5, rfl, by decide⟩))) (by decide)).1

/-- C2 (counterexample): at the spec example record, the tag value
Living Room is emitted raw into the metric label dict — the space is
not substituted, so the emitted tag differs from the sanitized
Living_Room the claim requires. -/
theorem tag_sanitize_counterexample :
    reportEvent (fun _ => Option.none) "ha" "sensor.temp" "21.5"
        (some (mkRat 43 2))
        [("unit_of_measurement", AttrValue.str "°C"),
         ("friendly_name", AttrValue.str "Living Room")] 0
      = [⟨[("__name__", "ha.sensor.temp.value"), ("unit_of_measurement", "°C"),
           ("friendly_name", "Living Room")], [mkRat 43 2], [0]⟩]
    ∧ "Living Room" ≠ "Living_Room" := by
  exact ⟨by decide, by decide⟩

/-- C2 (amended): an attribute value that reaches rule 7 (a string
the ISO-8601 parser rejects) becomes a tag carrying the raw string
unchanged — no space or semicolon substitution is applied to tag
values — and contributes nothing to key_values. -/
theorem tag_value_raw_amended (parse : String → Option ℚ)
    (things : List (String × AttrValue)) (k s : String)
    (hm : (k, AttrValue.str s) ∈ things) (hp : parse s = Option.none)
    (hnd : (things.map Prod.fst).Nodup) :
    (k, s) ∈ (classifyThings parse things).2
    ∧ ∀ q, (k, q) ∉ (classifyThings parse things).1 := by
  have hc : classifyAttr parse (AttrValue.str s) = ClassResult.tag s := by
    simp [classifyAttr, hp]
  constructor
  · exact classifyThings_mem_tag parse things k (AttrValue.str s) s hm hc
  · intro q hq
    rcases classifyThings_numeric_source parse things k q hq with ⟨v2, hv1, hv2⟩
    rw [keys_nodup_unique things hnd k v2 (AttrValue.str s) hv1 hm] at hv2
    rw [hc] at hv2
    exact ClassResult.noConfusion hv2

/-- C2 (witness): the raw-tag theorem applied to the Living Room
attribute of the spec example record. -/
theorem tag_value_raw_witness :
    ("friendly_name", "Living Room") ∈
      (classifyThings (fun _ => Option.none)
        [("unit_of_measurement", AttrValue.str "°C"),
         ("friendly_name", AttrValue.str "Living Room")]).2
    ∧ ∀ q, ("friendly_name", q) ∉
      (classifyThings (fun _ => Option.none)
        [("unit_of_measurement", AttrValue.str "°C"),
         ("friendly_name", AttrValue.str "Living Room")]).1 := by
  exact tag_value_raw_amended (fun _ => Option.none)
    [("unit_of_measurement", AttrValue.str "°C"),
     ("friendly_name", AttrValue.str "Living Room")]
    "friendly_name" "Living Room" (by decide) rfl (by decide)

/-- The MetricBatch series-entry invariant: equally long value and
timestamp lists, never empty. -/
def entryInv (m : MetricEntry) : Prop :=
  m.values.length = m.timestamps.length ∧ m.values ≠ []

/-- Updating an entry with one sample keeps the lists equally long
and leaves them non-empty. -/
theorem updateEntry_inv (m : MetricEntry) (name : String)
    (tags : List (String × String)) (v : ℚ) (ts : Int)
    (h : m.values.length = m.timestamps.length) :
    entryInv (updateEntry m name tags v ts) := by
  constructor
  · simp [updateEntry, h]
  · simp [updateEntry]

/-- batchAdd preserves the per-entry invariant for every stored
entry (the fresh defaultdict entry starts with two empty lists). -/
theorem batchAdd_inv :
    ∀ (b : List (String × MetricEntry)), (∀ p ∈ b, entryInv p.2) →
      ∀ (key name : String) (tags : List (String × String)) (v : ℚ) (ts : Int),
      ∀ p ∈ batchAdd b key name tags v ts, entryInv p.2 := by
  intro b
  induction b with
  | nil =>
    intro _ key name tags v ts p hp
    rcases List.mem_cons.mp hp with h1 | h1
    · rw [h1]
      exact updateEntry_inv emptyEntry name tags v ts rfl
    · exact absurd h1 (List.not_mem_nil _)
  | cons q rest ih =>
    intro hb key name tags v ts p hp
    match q with
    | (k0, m0) =>
      simp only [batchAdd] at hp
      by_cases hk : k0 = key
      · rw [if_pos hk] at hp
        rcases List.mem_cons.mp hp with h1 | h1
        · rw [h1]
          exact updateEntry_inv m0 name tags v ts
            (hb (k0, m0) (List.mem_cons_self _ _)).1
        · exact hb p (List.mem_cons_of_mem _ h1)
      · rw [if_neg hk] at hp
        rcases List.mem_cons.mp hp with h1 | h1
        · rw [h1]
          exact hb (k0, m0) (List.mem_cons_self _ _)
        · exact ih (fun r hr => hb r (List.mem_cons_of_mem _ hr))
            key name tags v ts p h1

/-- Adding a whole finalized row preserves the per-entry invariant. -/
theorem addRowToBatch_inv (pfx : String) (rr : RowResult) :
    ∀ (b : List (String × MetricEntry)), (∀ p ∈ b, entryInv p.2) →
      ∀ p ∈ addRowToBatch pfx b rr, entryInv p.2 := by
  have haux : ∀ (kvs : List (String × ℚ)) (b : List (String × MetricEntry)),
      (∀ p ∈ b, entryInv p.2) →
      ∀ p ∈ kvs.foldl
        (fun b2 kv =>
          let name := pfx ++ "." ++ rr.domain ++ "." ++ rr.entity_id ++ "."
            ++ replaceSpacesStr kv.1
          batchAdd b2 (name ++ ";" ++ joinTags rr.tags) name rr.tags kv.2
            rr.timestamp) b, entryInv p.2 := by
    intro kvs
    induction kvs with
    | nil =>
      intro b hb p hp
      exact hb p hp
    | cons kv rest ih =>
      intro b hb
      exact ih _ (batchAdd_inv b hb _ _ rr.tags kv.2 rr.timestamp)
  intro b hb
  exact haux rr.key_values b hb

/-- processRows preserves the per-entry invariant across every row. -/
theorem processRows_inv (pf iso : String → Option ℚ) (bl : List String)
    (pfx : String) :
    ∀ (rows : List (List (String × String × String)))
      (b b2 : List (String × MetricEntry)), (∀ p ∈ b, entryInv p.2) →
      processRows pf iso bl pfx b rows = some b2 →
      ∀ p ∈ b2, entryInv p.2 := by
  intro rows
  induction rows with
  | nil =>
    intro b b2 hb h
    rw [show b = b2 from Option.some.inj h] at hb
    exact hb
  | cons row rest ih =>
    intro b b2 hb h
    simp only [processRows] at h
    rcases hr : processRow pf iso bl row with _ | rr
    · rw [hr] at h
      exact absurd h (Option.noConfusion)
    · rw [hr] at h
      exact ih _ _ (addRowToBatch_inv pfx rr b hb) h

/-- C4: starting from a batch whose entries satisfy the invariant
(in particular the empty batch), after any successful sequence of
data rows every stored entry has equally long, non-empty value and
timestamp lists — and the encoder emits exactly the stored entries,
so no emitted entry is empty either. -/
theorem batch_never_empty (pf iso : String → Option ℚ) (bl : List String)
    (pfx : String) (rows : List (List (String × String × String)))
    (b b2 : List (String × MetricEntry))
    (hb : ∀ m ∈ emitBatch b, entryInv m)
    (h : processRows pf iso bl pfx b rows = some b2) :
    ∀ m ∈ emitBatch b2, entryInv m := by
  intro m hm
  rcases List.mem_map.mp hm with ⟨p, hp, hpm⟩
  rw [← hpm]
  exact processRows_inv pf iso bl pfx rows b b2
    (fun p2 hp2 => hb p2.2 (List.mem_map_of_mem _ hp2)) h p hp

/-- C4 (witness): one concrete row aggregated into the empty batch
yields a single entry holding one value and one timestamp. -/
theorem batch_never_empty_witness :
    processRows (fun _ => Option.none)
        (fun s => if s = "t0" then some 1640995200 else Option.none) [] "ha" []
        [[("string", "_time", "t0"), ("string", "domain", "sensor"),
          ("string", "entity_id", "status"), ("string", "state", "unknown")]]
      = some [("ha.sensor.status.value;state=unknown",
          ⟨"ha.sensor.status.value", [("state", "unknown")], [0], [1640995200000]⟩)]
    ∧ entryInv ⟨"ha.sensor.status.value", [("state", "unknown")], [0],
        [1640995200000]⟩ := by
  constructor
  · decide
  · exact batch_never_empty (fun _ => Option.none)
      (fun s => if s = "t0" then some 1640995200 else Option.none) [] "ha"
      [[("string", "_time", "t0"), ("string", "domain", "sensor"),
        ("string", "entity_id", "status"), ("string", "state", "unknown")]]
      [] [("ha.sensor.status.value;state=unknown",
        ⟨"ha.sensor.status.value", [("state", "unknown")], [0], [1640995200000]⟩)]
      (fun m hm => absurd hm (List.not_mem_nil m)) (by decide)
      ⟨"ha.sensor.status.value", [("state", "unknown")], [0], [1640995200000]⟩
      (by decide)

/-- Space substitution never produces a space. -/
theorem replaceSpaces_no_space (s : List Char) :
    ∀ c ∈ replaceSpaces s, c ≠ ' ' := by
  intro c hc
  rcases List.mem_map.mp hc with ⟨a, _, ha⟩
  by_cases h : a = ' '
  · rw [← ha, if_pos h]
    decide
  · rw [← ha, if_neg h]
    exact h

/-- A list without spaces is fixed by space substitution. -/
theorem replaceSpaces_eq_self (s : List Char) (h : ∀ c ∈ s, c ≠ ' ') :
    replaceSpaces s = s := by
  induction s with
  | nil => rfl
  | cons c t ih =>
    simp only [replaceSpaces, List.map_cons,
      if_neg (h c (List.mem_cons_self _ _))]
    rw [show List.map (fun c => if c = ' ' then '_' else c) t = replaceSpaces t
      from rfl, ih (fun x hx => h x (List.mem_cons_of_mem _ hx))]

/-- A list that does not end in a dot is fixed by rstrip. -/
theorem rstripDots_eq_self (s : List Char) (h : s.getLast? ≠ some '.') :
    rstripDots s = s := by
  rcases hrev : s.reverse with _ | ⟨c, t⟩
  · have hs : s = [] := by
      have := congrArg List.reverse hrev
      rwa [List.reverse_reverse, List.reverse_nil] at this
    rw [hs]
    rfl
  · have hs : s = (c :: t).reverse := by
      rw [← hrev, List.reverse_reverse]
    have hlast : s.getLast? = some c := by
      rw [← List.head?_reverse, hrev]
      rfl
    have hc : ¬(c = '.') := by
      intro hcc
      rw [hcc] at hlast
      exact h hlast
    rw [rstripDots, hrev, List.dropWhile_cons, if_neg (by simpa using hc)]
    exact hs.symm

/-- The first element surviving dropWhile fails the predicate. -/
theorem dropWhile_head_not {α : Type} (p : α → Bool) :
    ∀ (l : List α) (c : α), (l.dropWhile p).head? = some c → p c = false := by
  intro l
  induction l with
  | nil =>
    intro c hc
    exact absurd hc (by simp)
  | cons a t ih =>
    intro c hc
    rw [List.dropWhile_cons] at hc
    by_cases ha : p a
    · rw [if_pos ha] at hc
      exact ih c hc
    · rw [if_neg ha] at hc
      rw [show c = a from Option.some.inj hc.symm]
      exact Bool.not_eq_true _ ▸ ha

/-- rstrip leaves no trailing dot behind. -/
theorem rstripDots_getLast (s : List Char) :
    (rstripDots s).getLast? ≠ some '.' := by
  intro h
  rw [← List.head?_reverse, rstripDots, List.reverse_reverse] at h
  have := dropWhile_head_not (fun c => decide (c = '.')) s.reverse '.' h
  simp at this

/-- C6 (amended): metric-name construction is deterministic, each
sanitization step is idempotent on its own, and re-applying space
substitution plus trailing-dot stripping leaves a constructed name
unchanged provided the prefix and the entity path contain no spaces
and the constructed name does not end in the separator; with spaces
in the path (or a trailing dot from the attribute name) the code
leaves the name un-sanitized, so unrestricted idempotence fails. -/
theorem metric_name_idempotence_amended :
    (∀ (p1 p2 path1 path2 k1 k2 : List Char), p1 = p2 → path1 = path2 →
      k1 = k2 → mkMetricName p1 path1 k1 = mkMetricName p2 path2 k2)
    ∧ (∀ s : List Char, replaceSpaces (replaceSpaces s) = replaceSpaces s)
    ∧ (∀ p : List Char, rstripDots (rstripDots p) = rstripDots p)
    ∧ (∀ (pfx path key : List Char),
        (∀ c ∈ pfx, c ≠ ' ') → (∀ c ∈ path, c ≠ ' ') →
        (mkMetricName pfx path key).getLast? ≠ some '.' →
        sanitizeName (mkMetricName pfx path key) = mkMetricName pfx path key) := by
  refine ⟨?_, ?_, ?_, ?_⟩
  · intro p1 p2 path1 path2 k1 k2 h1 h2 h3
    rw [h1, h2, h3]
  · intro s
    exact replaceSpaces_eq_self (replaceSpaces s) (replaceSpaces_no_space s)
  · intro p
    exact rstripDots_eq_self (rstripDots p) (rstripDots_getLast p)
  · intro pfx path key hp hpath hlast
    have hname : ∀ c ∈ mkMetricName pfx path key, c ≠ ' ' := by
      intro c hc
      rw [mkMetricName] at hc
      rcases List.mem_append.mp hc with h1 | h1
      · exact hp c h1
      · rcases List.mem_cons.mp h1 with h2 | h2
        · rw [h2]
          decide
        · rcases List.mem_append.mp h2 with h3 | h3
          · exact hpath c h3
          · rcases List.mem_cons.mp h3 with h4 | h4
            · rw [h4]
              decide
            · exact replaceSpaces_no_space key c h4
    rw [sanitizeName, replaceSpaces_eq_self _ hname, rstripDots_eq_self _ hlast]

/-- C6 (counterexample): re-applying the sanitization to a name
constructed from a path containing a space changes the name, so the
construction is not idempotent as claimed (only the attribute-key
spaces are ever substituted). -/
theorem metric_name_idempotence_counterexample :
    sanitizeName (mkMetricName "ha".data "sensor temp".data "value".data)
      ≠ mkMetricName "ha".data "sensor temp".data "value".data := by
  decide

/-- C6 (witness): the amended idempotence theorem applied to the
name built from prefix ha, path sensor.temp and a spacey attribute
key. -/
theorem metric_name_idempotence_witness :
    sanitizeName (mkMetricName "ha".data "sensor.temp".data "Living Room".data)
      = mkMetricName "ha".data "sensor.temp".data "Living Room".data := by
  exact metric_name_idempotence_amended.2.2.2 "ha".data "sensor.temp".data
    "Living Room".data (by decide) (by decide) (by decide)

/-- Python-dict lookup. -/
def dictGet {α : Type} : List (String × α) → String → Option α
  | [], _ => Option.none
  | (k0, v0) :: rest, k => if k0 = k then some v0 else dictGet rest k

/-- Looking up the key just inserted yields the inserted value. -/
theorem dictGet_dictInsert {α : Type} :
    ∀ (d : List (String × α)) (k : String) (v : α),
      dictGet (dictInsert d k v) k = some v := by
  intro d
  induction d with
  | nil =>
    intro k v
    simp [dictInsert, dictGet]
  | cons p rest ih =>
    intro k v
    match p with
    | (k0, v0) =>
      by_cases h : k0 = k
      · simp [dictInsert, dictGet, h]
      · simp [dictInsert, dictGet, h, ih]

/-- Folding dict insertions whose last pair carries the key yields
that last value. -/
theorem dictGet_foldl_last {α : Type} (ts : List (String × α))
    (d : List (String × α)) (k : String) (v : α) :
    dictGet ((ts ++ [(k, v)]).foldl (fun d2 p => dictInsert d2 p.1 p.2) d) k
      = some v := by
  rw [List.foldl_append]
  simp only [List.foldl_cons, List.foldl_nil]
  exact dictGet_dictInsert _ k v

/-- C1 (amended): when classification yields zero numeric key_values,
the live feeder emits exactly one synthesized metric named
prefix.entity.value with the single value 0 and records the raw
primary state under the tag key value; the backfill importer also
synthesizes exactly the one (value, 0) key_value but leaves the tags
exactly as the general tag rule built them — it does not add the raw
primary state as a tag at that point. -/
theorem fallback_observation_amended :
    (∀ (parse : String → Option ℚ) (pfx entityId state : String)
        (stateNum : Option ℚ) (attrs : List (String × AttrValue)) (tsMs : Int),
      (classifyThings parse (mkThings attrs stateNum)).1 = [] →
      reportEvent parse pfx entityId state stateNum attrs tsMs
        = [buildMetric pfx entityId
            ((classifyThings parse (mkThings attrs stateNum)).2
              ++ [("value", state)]) tsMs ("value", 0)]
      ∧ (buildMetric pfx entityId
            ((classifyThings parse (mkThings attrs stateNum)).2
              ++ [("value", state)]) tsMs ("value", 0)).values = [0]
      ∧ dictGet (buildMetric pfx entityId
            ((classifyThings parse (mkThings attrs stateNum)).2
              ++ [("value", state)]) tsMs ("value", 0)).metric "value"
          = some state)
    ∧ (∀ (st : RowState) (d e : String) (t : Int),
        st.key_values = [] → st.domain = some d → st.entity_id = some e →
        st.timestamp = some t → d ≠ "" → e ≠ "" → t ≠ 0 →
        finalizeRow st = some ⟨[("value", 0)], st.tags, d, e, t⟩) := by
  constructor
  · intro parse pfx entityId state stateNum attrs tsMs hkv
    refine ⟨?_, rfl, ?_⟩
    · simp only [reportEvent, hkv, finalizeKV, List.isEmpty_nil, if_pos,
        List.map_cons, List.map_nil]
    · exact dictGet_foldl_last _ _ "value" state
  · intro st d e t hkv hd he ht hdne hene htne
    simp only [finalizeRow, hkv, hd, he, ht, List.isEmpty_nil, if_true]
    rw [if_pos ⟨hdne, hene, htne⟩]

/-- C1 (counterexample): a backfill row whose state column is in the
tag blacklist and that carries no numeric field synthesizes the one
(value, 0) observation with an empty tag set — the raw primary state
unknown is not recorded as a tag on that observation, and the
aggregated entry it produces carries no tags either. -/
theorem fallback_state_tag_counterexample :
    processRow (fun _ => Option.none)
        (fun s => if s = "t0" then some 1640995200 else Option.none) ["state"]
        [("string", "_time", "t0"), ("string", "domain", "sensor"),
         ("string", "entity_id", "status"), ("string", "state", "unknown")]
      = some ⟨[("value", 0)], [], "sensor", "status", 1640995200000⟩
    ∧ addRowToBatch "ha" []
        ⟨[("value", 0)], [], "sensor", "status", 1640995200000⟩
      = [("ha.sensor.status.value;",
          ⟨"ha.sensor.status.value", [], [0], [1640995200000]⟩)] := by
  exact ⟨by decide, by decide⟩

/-- C1 (witness): the amended fallback theorem applied to a live
record with only a tag-valued attribute, and to a backfill row state
with no numeric field. -/
theorem fallback_observation_witness :
    reportEvent (fun _ => Option.none) "ha" "sensor.status" "unknown"
        Option.none [("icon", AttrValue.str "mdi:light")] 1000
      = [⟨[("__name__", "ha.sensor.status.value"), ("icon", "mdi:light"),
           ("value", "unknown")], [0], [1000]⟩]
    ∧ finalizeRow ⟨[], [("state", "unknown")], some "sensor", some "status",
        some 5⟩
      = some ⟨[("value", 0)], [("state", "unknown")], "sensor", "status", 5⟩ := by
  constructor
  · exact ((fallback_observation_amended.1 (fun _ => Option.none) "ha"
      "sensor.status" "unknown" Option.none [("icon", AttrValue.str "mdi:light")]
      1000 (by decide)).1).trans (by decide)
  · exact fallback_observation_amended.2
      ⟨[], [("state", "unknown")], some "sensor", some "status", some 5⟩
      "sensor" "status" 5 rfl rfl rfl rfl (by decide) (by decide) (by decide)
